import Mathlib

/-!
Formal model of the mr-manager command supervisor (`src/index.js`).

The JavaScript source is shallowly embedded as follows:

* `State` mirrors the `STATES` object (only the state identity matters here;
  the associated ANSI colors are modelled where they appear in printed text).
* A compiled pattern (`STRING_TO_REGEX`, a case-insensitive `RegExp`) is
  abstracted as the predicate it computes, `Matcher := String → Bool`.
* `Spec` mirrors a parsed configuration entry (a `CommandSpec`): `command`,
  `args`, optional `name`, `watch` (presence of a WatchSpec), the nested
  `install` list, and the three pattern lists in compiled form.  The opaque
  spawn `options` field is behaviourally inert and not modelled.
* `Runner` mirrors the mutable `CommandRunner` object: the fields copied from
  the spec in the constructor (which in JS alias the spec's own arrays), the
  `_installer` flag, the current `state`, the `_started` guard and the
  `restarted` flag used by the watch-triggered restart path.
* Side effects (spawning, killing the process tree via `tree-kill`, console
  output, state-change callbacks) are reified as a trace of `Event`s.
-/

inductive State where
  | INITIALIZING
  | INSTALLING
  | BUILDING
  | READY
  | FAILED
  | CLOSED
  | COMPLETE
deriving DecidableEq, Repr

/-- A compiled output pattern: `STRING_TO_REGEX` (src line 39) compiles a
configured pattern string to a case-insensitive `RegExp`; we abstract the
compiled matcher as the Boolean predicate `RegExp.test` computes. -/
abbrev Matcher := String → Bool

/-- A parsed `CommandSpec` configuration entry (src lines 42-53 read these
fields).  `install` entries are nested specs of the same shape. -/
inductive Spec : Type where
  | mk (command : String) (args : List String) (name? : Option String)
       (watch : Bool) (install : List Spec)
       (building : List Matcher) (ready : List Matcher) (failed : List Matcher) : Spec

def Spec.command : Spec → String
  | .mk c _ _ _ _ _ _ _ => c

def Spec.args : Spec → List String
  | .mk _ a _ _ _ _ _ _ => a

def Spec.name? : Spec → Option String
  | .mk _ _ n _ _ _ _ _ => n

def Spec.watch : Spec → Bool
  | .mk _ _ _ w _ _ _ _ => w

def Spec.install : Spec → List Spec
  | .mk _ _ _ _ i _ _ _ => i

def Spec.building : Spec → List Matcher
  | .mk _ _ _ _ _ b _ _ => b

def Spec.ready : Spec → List Matcher
  | .mk _ _ _ _ _ _ r _ => r

def Spec.failed : Spec → List Matcher
  | .mk _ _ _ _ _ _ _ f => f

/-- `currentInstallStep.name = ...` (src line 61): overwrite the `name` field
of a spec.  In the source this mutates the step object in place. -/
def Spec.withName : Spec → String → Spec
  | .mk c a _ w i b r f, n => .mk c a (some n) w i b r f

/-- JavaScript `x || y` on an optional string: `undefined` and the empty
string are falsy, so both fall through to the default. -/
def jsOr (a? : Option String) (b : String) : String :=
  match a? with
  | some a => if a = "" then b else a
  | none => b

mutual

/-- Size of a spec tree (for termination of the install-chain recursion). -/
def Spec.weight : Spec → Nat
  | .mk _ _ _ _ i _ _ _ => 1 + weightList i

/-- Total size of a list of spec trees. -/
def weightList : List Spec → Nat
  | [] => 0
  | s :: ss => Spec.weight s + weightList ss

end

/-- Observable effects of the supervisor, reified as trace events. -/
inductive Event where
  /-- `_propagateState` (src lines 117-121): the `state` callback fired with
  `{name, state}`. -/
  | stateChange (name : String) (state : State)
  /-- `_out` (src lines 141-146): the `out` callback fired with `{name, data}`. -/
  | out (name : String) (data : String)
  /-- `_err` (src lines 148-153): the `err` callback fired with `{name, data}`. -/
  | err (name : String) (data : String)
  /-- `spawn(command, args, options)` (src line 91): a child process spawned. -/
  | spawn (name : String)
  /-- A spawned child process exited with the given code (the `close` stream
  event of src line 94, as observed by the event loop). -/
  | exit (name : String) (code : Int)
  /-- `kill(this._proc.pid)` (src line 113): the process-tree terminator
  capability (`tree-kill`) invoked on the current child. -/
  | kill (name : String)
  /-- `this._startAutoreload()` (src lines 97-108): a chokidar watcher was
  registered for this runner. -/
  | watchStarted (name : String)
  /-- `setTimeout(..., 1000)` (src line 164): the fixed restart delay. -/
  | delay (ms : Nat)
  /-- `console.log` of one line by the manager. -/
  | printLine (s : String)
  /-- The manager invoked the `restart` capability it received (src line 239). -/
  | restartInvoked
  /-- `_clearStatusLines` (src lines 196-198). -/
  | statusClear
  /-- `_logStatusLines` (src lines 200-207). -/
  | statusRender
deriving DecidableEq, Repr

/-- The value a runner's `close` callback is invoked with. -/
inductive CloseArg where
  /-- `close({name, code, restart})` (src line 167): a structured close event;
  the `restart` field always carries the re-spawn capability on this path. -/
  | structured (name : String) (code : Int)
  /-- `close(code)` (src line 69): the install-failure path passes a bare
  value instead of a structured event, so no restart capability (and no name)
  accompanies it.  Destructuring a bare number yields `undefined` for every
  field, which we model as `none`. -/
  | bare (code? : Option Int)
deriving DecidableEq, Repr

/-- A JavaScript runtime exception. -/
inductive JsError where
  | typeError
deriving DecidableEq, Repr

/-- `throw new Error(...)` outcomes of `start` (src line 85). -/
inductive StartErr where
  | alreadyStarted
deriving DecidableEq, Repr

/-- The mutable `CommandRunner` object (src lines 41-54).  The fields
`command` … `failed` are the ones the constructor copies from the spec; in JS
`install` (and the pattern arrays) alias the spec's own arrays, so mutating
`this.install` mutates the spec. -/
structure Runner where
  command : String
  args : List String
  name : String
  watch : Bool
  install : List Spec
  building : List Matcher
  ready : List Matcher
  failed : List Matcher
  installer : Bool
  state : State
  started : Bool
  restarted : Bool

/-- The `CommandRunner` constructor (src lines 42-54). -/
def mkRunner (s : Spec) (installer : Bool) : Runner :=
  { command := s.command
    args := s.args
    name := jsOr s.name? s.command
    watch := s.watch
    install := s.install
    building := s.building
    ready := s.ready
    failed := s.failed
    installer := installer
    state := if installer || !s.install.isEmpty then State.INSTALLING else State.INITIALIZING
    started := false
    restarted := false }

/-- `_checkUpdateState` (src lines 123-139): test the whole chunk against the
`ready`, then `building`, then `failed` matcher lists; the first list with a
match sets the state and fires one state-change event; otherwise nothing
happens.  (`Array.prototype.find` on matchers is used only for its truthiness,
i.e. existence of a match.) -/
def checkUpdateState (r : Runner) (data : String) : Runner × List Event :=
  if r.ready.any (fun m => m data) then
    ({r with state := State.READY}, [Event.stateChange r.name State.READY])
  else if r.building.any (fun m => m data) then
    ({r with state := State.BUILDING}, [Event.stateChange r.name State.BUILDING])
  else if r.failed.any (fun m => m data) then
    ({r with state := State.FAILED}, [Event.stateChange r.name State.FAILED])
  else
    (r, [])

/-- `_out` (src lines 141-146): fire the `out` callback with the chunk, then
classify the chunk. -/
def outHandler (r : Runner) (data : String) : Runner × List Event :=
  let s := checkUpdateState r data
  (s.1, Event.out r.name data :: s.2)

/-- `_err` (src lines 148-153): fire the `err` callback with the chunk, then
classify the chunk. -/
def errHandler (r : Runner) (data : String) : Runner × List Event :=
  let s := checkUpdateState r data
  (s.1, Event.err r.name data :: s.2)

/-- The behaviour of one spawned child process, as chosen by the environment:
the stdout/stderr chunks it emits (`true` marks a stderr chunk) followed by
its exit code. -/
structure Proc where
  outs : List (Bool × String)
  code : Int

/-- Deliver a child's output chunks to the runner's `_out`/`_err` handlers in
order, accumulating the events. -/
def deliverChunks (r : Runner) : List (Bool × String) → Runner × List Event
  | [] => (r, [])
  | (isErr, data) :: rest =>
      let s1 := if isErr then errHandler r data else outHandler r data
      let s2 := deliverChunks s1.1 rest
      (s2.1, s1.2 ++ s2.2)

/-- `_close` (src lines 155-168): if the exit was a planned watch-triggered
restart, clear the flag and do nothing; otherwise set the state to `COMPLETE`
(install step with exit code 0) or `CLOSED`, fire the state change, and invoke
the `close` callback with `{name, code, restart}` — `restart` being the
capability that re-spawns after the fixed delay.  The returned `Option
CloseArg` is the value the `close` callback was invoked with (`none` when it
was not invoked). -/
def closeHandler (r : Runner) (code : Int) : Runner × List Event × Option CloseArg :=
  if r.restarted then
    ({r with restarted := false}, [], none)
  else
    let newState := if r.installer && code == 0 then State.COMPLETE else State.CLOSED
    ({r with state := newState},
     [Event.stateChange r.name newState],
     some (CloseArg.structured r.name code))

/-- The `restart` capability built in `_close` (src lines 163-165):
`setTimeout(() => this._run(), 1000)`.  `_run` only re-spawns; it does not
touch the runner's state. -/
def restartCap (r : Runner) : Runner × List Event :=
  (r, [Event.delay 1000, Event.spawn r.name])

/-- The informational line printed by `_restart` (src line 112). -/
def watchRestartMsg : String := "Watched files have changed, restarting..."

/-- `_restart` (src lines 110-115), the watch-triggered restart: set the
`restarted` flag, emit the informational line through `_out` (which also runs
the classifier on it), kill the process tree, and immediately re-spawn. -/
def restartHandler (r : Runner) : Runner × List Event :=
  let r1 : Runner := {r with restarted := true}
  let s := outHandler r1 watchRestartMsg
  (s.1, s.2 ++ [Event.kill r.name, Event.spawn r.name])

/-- The display name given to an install step (src line 61):
`` `${this.name}:${currentInstallStep.name || 'install'}` ``. -/
def instName (parent : String) (s : Spec) : String :=
  parent ++ ":" ++ jsOr s.name? "install"

/-- One synchronous invocation of `start` (src lines 56-87), as seen by the
caller before control returns to the event loop.  With install steps pending,
`start` shifts the head step off `this.install` (mutating it), wraps the step
in an installer sub-runner and starts it — which recursively either shifts
again or spawns the step's process.  With no steps pending it either marks
the runner started, fires the current state, spawns the main command (and
registers the watcher if configured), or throws AlreadyStarted.  Returns the
updated runner, the events, the names of processes spawned by this call, and
the error, if thrown. -/
def startSync (r : Runner) : Runner × List Event × List String × Option StartErr :=
  match h : r.install with
  | step :: rest =>
      let step' := step.withName (instName r.name step)
      let sub := mkRunner step' true
      let s := startSync sub
      ({r with install := rest}, s.2.1, s.2.2.1, s.2.2.2)
  | [] =>
      if !r.started then
        ({r with started := true},
         [Event.stateChange r.name r.state, Event.spawn r.name]
           ++ (if r.watch then [Event.watchStarted r.name] else []),
         [r.name], none)
      else
        (r, [], [], some StartErr.alreadyStarted)
termination_by weightList r.install
decreasing_by
  simp only [mkRunner]
  cases step with
  | mk c a n w i b rd f =>
      simp only [Spec.withName, Spec.install]
      simp only [h, weightList, Spec.weight]
      omega

/-- How the install-close wrapper (src line 67) reads the exit code out of the
value its `close` callback receives: destructuring `({code})` from a
structured event yields the code; destructuring it from a bare value (the
install-failure path passes a bare number up) yields `undefined` (`none`). -/
def wrapperCode : CloseArg → Option Int
  | CloseArg.structured _ c => some c
  | CloseArg.bare _ => none

/-- Result of driving `start` and its install chain forward. -/
inductive StartOutcome where
  /-- The runner's own (main) command was spawned; `next` is the index of the
  next unused environment process behaviour. -/
  | spawned (r : Runner) (next : Nat)
  /-- The runner's `close` callback was invoked with `arg` before its main
  command ever spawned (install-chain abort). -/
  | closedEarly (arg : CloseArg) (next : Nat)
  /-- An install step's exit was swallowed without invoking its `close`
  callback (unreachable for freshly constructed sub-runners, whose
  `restarted` flag is false; present for totality). -/
  | stalled (next : Nat)
  /-- `start` threw the AlreadyStarted error. -/
  | alreadyStarted

/-- `start` (src lines 56-87) driven to the spawn of the runner's main
command, under an environment `env` assigning each successively spawned child
process its behaviour (output chunks, then exit code).  Install steps run
strictly sequentially: the next step is only reached from inside the previous
step's close wrapper (src lines 67-74), which aborts with a bare `close(code)`
on a non-zero exit and otherwise resets the parent to `INITIALIZING` and
re-enters `start`. -/
def startToSpawn (r : Runner) (env : Nat → Proc) (k : Nat) : List Event × StartOutcome :=
  match h : r.install with
  | step :: rest =>
      let step' := step.withName (instName r.name step)
      let sub := mkRunner step' true
      let s1 := startToSpawn sub env k
      match s1.2 with
      | StartOutcome.alreadyStarted => (s1.1, StartOutcome.alreadyStarted)
      | StartOutcome.stalled next => (s1.1, StartOutcome.stalled next)
      | StartOutcome.closedEarly arg next =>
          -- the sub-runner's `close` (our wrapper) fired before its process
          -- spawned: react as the wrapper does (src lines 67-74)
          (match wrapperCode arg with
           | some c =>
               if c == 0 then
                 let s4 := startToSpawn {r with install := rest, state := State.INITIALIZING} env next
                 (s1.1 ++ s4.1, s4.2)
               else
                 (s1.1, StartOutcome.closedEarly (CloseArg.bare (some c)) next)
           | none => (s1.1, StartOutcome.closedEarly (CloseArg.bare none) next))
      | StartOutcome.spawned sub0 next =>
          -- the step's process is live: the environment delivers its chunks
          -- and exit, which reach the sub-runner's `_out`/`_err`/`_close`
          let p := env next
          let d := deliverChunks sub0 p.outs
          let c3 := closeHandler d.1 p.code
          let evs := s1.1 ++ d.2 ++ c3.2.1 ++ [Event.exit c3.1.name p.code]
          (match c3.2.2 with
           | none => (evs, StartOutcome.stalled (next + 1))
           | some arg =>
               match wrapperCode arg with
               | some c =>
                   if c == 0 then
                     let s4 := startToSpawn {r with install := rest, state := State.INITIALIZING} env (next + 1)
                     (evs ++ s4.1, s4.2)
                   else
                     (evs, StartOutcome.closedEarly (CloseArg.bare (some c)) (next + 1))
               | none => (evs, StartOutcome.closedEarly (CloseArg.bare none) (next + 1)))
  | [] =>
      if !r.started then
        ([Event.stateChange r.name r.state, Event.spawn r.name]
           ++ (if r.watch then [Event.watchStarted r.name] else []),
         StartOutcome.spawned {r with started := true} k)
      else
        ([], StartOutcome.alreadyStarted)
termination_by weightList r.install
decreasing_by
  · simp only [mkRunner]
    cases step with
    | mk c a n w i b rd f =>
        simp only [Spec.withName, Spec.install]
        simp only [h, weightList, Spec.weight]
        omega
  · cases step with
    | mk c a n w i b rd f =>
        simp only [h, weightList, Spec.weight]
        omega
  · cases step with
    | mk c a n w i b rd f =>
        simp only [h, weightList, Spec.weight]
        omega

/-- `CHARS.RED` (src line 15). -/
def CHARS_RED : String := "\u001b[31;1m"

/-- `CHARS.RESET` (src line 22). -/
def CHARS_RESET : String := "\u001b[0m"

/-- A carriage return or line feed, the characters the display regex
`/[^\r\n]+/g` (src lines 220, 230) excludes. -/
def isCRLF (c : Char) : Bool := c == '\r' || c == '\n'

/-- Helper for `nonCRLFRuns`: scan the characters, accumulating the current
run (in reverse) in `cur` and emitting it whenever a CR/LF terminates it. -/
def nonCRLFRunsAux (cur : List Char) : List Char → List (List Char)
  | [] => if cur.isEmpty then [] else [cur.reverse]
  | c :: cs =>
      if isCRLF c then
        (if cur.isEmpty then [] else [cur.reverse]) ++ nonCRLFRunsAux [] cs
      else nonCRLFRunsAux (c :: cur) cs

/-- `data.match(/[^\r\n]+/g)`: the maximal runs of non-CR/LF characters, in
order.  JavaScript's `match` returns `null` exactly when this list is empty. -/
def nonCRLFRuns (cs : List Char) : List (List Char) := nonCRLFRunsAux [] cs

/-- `CommandRunnerManager._out` (src lines 216-224): extract the chunk's lines
with `/[^\r\n]+/g`, print the first prefixed with `[name]` and the rest
indented with a leading `|`.  When the match returns `null` (CR/LF-only
chunk), the array destructuring throws a TypeError, modelled as `none`;
otherwise the printed lines are returned. -/
def managerOutLines (name data : String) : Option (List String) :=
  let pfx := "[" ++ name ++ "]"
  let blankPfx := String.mk (List.replicate (pfx.length - 1) ' ')
  match nonCRLFRuns data.toList with
  | [] => none
  | firstLine :: lines =>
      some ((pfx ++ " " ++ String.mk firstLine)
              :: lines.map (fun l => blankPfx ++ "| " ++ String.mk l))

/-- `CommandRunnerManager._err` (src lines 226-234): as `_out` but with the
prefix and continuation marker wrapped in the error colour. -/
def managerErrLines (name data : String) : Option (List String) :=
  let pfx := "[" ++ name ++ "]"
  let blankPfx := String.mk (List.replicate (pfx.length - 1) ' ')
  match nonCRLFRuns data.toList with
  | [] => none
  | firstLine :: lines =>
      some ((CHARS_RED ++ pfx ++ CHARS_RESET ++ " " ++ String.mk firstLine)
              :: lines.map (fun l => blankPfx ++ CHARS_RED ++ "|" ++ CHARS_RESET ++ " " ++ String.mk l))

/-- The crash notice printed by `CommandRunnerManager._close` (src line 238),
with the source's spelling preserved. -/
def crashNotice (name : String) : String :=
  CHARS_RED ++ "[" ++ name ++ "]" ++ CHARS_RESET
    ++ " Command has quit unexpectdly, automatically restarting..."

/-- `CommandRunnerManager._close` (src lines 236-241): clear the status line,
print the crash notice, call `restart()` unconditionally, re-render.  When the
close event arrives as a bare exit code (the install-failure path), the
destructured `name` and `restart` are `undefined`: the notice prints
`[undefined]` and the `restart()` call throws a TypeError before the
re-render.  Returns the events emitted before any exception, and the
exception, if one was thrown. -/
def managerClose (arg : CloseArg) : List Event × Option JsError :=
  match arg with
  | CloseArg.structured name _ =>
      ([Event.statusClear, Event.printLine (crashNotice name),
        Event.restartInvoked, Event.statusRender], none)
  | CloseArg.bare _ =>
      ([Event.statusClear, Event.printLine (crashNotice "undefined")],
       some JsError.typeError)

/-- Follows the spec's words (not the source): classification that first
splits the chunk into lines on line-terminator boundaries within the chunk
and then classifies each resulting line independently, in order.  Compare
with `checkUpdateState`, which the source applies to the whole chunk. -/
def checkUpdateStateSpecLines (r : Runner) (data : String) : Runner × List Event :=
  (nonCRLFRuns data.toList).foldl
    (fun acc line =>
      ((checkUpdateState acc.1 (String.mk line)).1,
       acc.2 ++ (checkUpdateState acc.1 (String.mk line)).2))
    (r, [])

/-- Projection of a trace to its process-lifecycle events (spawns and exits). -/
def procEvents : List Event → List Event :=
  List.filter fun e =>
    match e with
    | Event.spawn _ => true
    | Event.exit _ _ => true
    | _ => false

/-! ### Basic lemmas about the classifier -/

lemma isCRLF_iff (c : Char) : isCRLF c = true ↔ c = '\r' ∨ c = '\n' := by
  simp [isCRLF]

lemma anyMatch_iff (l : List Matcher) (data : String) :
    l.any (fun m => m data) = true ↔ ∃ m ∈ l, m data = true := by
  simp [List.any_eq_true]

/-- `_checkUpdateState` only ever rewrites the `state` field of the runner. -/
lemma checkUpdateState_fst (r : Runner) (data : String) :
    (checkUpdateState r data).1 = {r with state := (checkUpdateState r data).1.state} := by
  unfold checkUpdateState
  split
  · rfl
  · split
    · rfl
    · split
      · rfl
      · rfl

/-- The classifier emits no process-lifecycle events. -/
lemma checkUpdateState_procEvents (r : Runner) (data : String) :
    procEvents (checkUpdateState r data).2 = [] := by
  unfold checkUpdateState
  split
  · rfl
  · split
    · rfl
    · split
      · rfl
      · rfl

/-- C1: For every output chunk delivered to a runner, the matcher lists are
tested in the fixed priority order ready, building, failed; the first list
with a match wins, sets the state and emits exactly one state-change event,
the remaining lists being irrelevant; with no match anywhere the runner is
unchanged and no event is emitted.  In particular a chunk matching both a
ready and a failed pattern yields `READY` (first conjunct, which holds
regardless of the failed list). -/
theorem checkUpdateState_priority (r : Runner) (data : String) :
    ((∃ m ∈ r.ready, m data = true) →
       checkUpdateState r data
         = ({r with state := State.READY}, [Event.stateChange r.name State.READY]))
  ∧ ((¬ ∃ m ∈ r.ready, m data = true) → (∃ m ∈ r.building, m data = true) →
       checkUpdateState r data
         = ({r with state := State.BUILDING}, [Event.stateChange r.name State.BUILDING]))
  ∧ ((¬ ∃ m ∈ r.ready, m data = true) → (¬ ∃ m ∈ r.building, m data = true) →
       (∃ m ∈ r.failed, m data = true) →
       checkUpdateState r data
         = ({r with state := State.FAILED}, [Event.stateChange r.name State.FAILED]))
  ∧ ((¬ ∃ m ∈ r.ready, m data = true) → (¬ ∃ m ∈ r.building, m data = true) →
       (¬ ∃ m ∈ r.failed, m data = true) →
       checkUpdateState r data = (r, [])) := by
  refine ⟨?_, ?_, ?_, ?_⟩
  · intro h
    have hr : r.ready.any (fun m => m data) = true := (anyMatch_iff _ _).mpr h
    simp [checkUpdateState, hr]
  · intro hn h
    have hr : r.ready.any (fun m => m data) = false := by
      simpa [anyMatch_iff] using hn
    have hb : r.building.any (fun m => m data) = true := (anyMatch_iff _ _).mpr h
    simp [checkUpdateState, hr, hb]
  · intro hn hnb h
    have hr : r.ready.any (fun m => m data) = false := by
      simpa [anyMatch_iff] using hn
    have hb : r.building.any (fun m => m data) = false := by
      simpa [anyMatch_iff] using hnb
    have hf : r.failed.any (fun m => m data) = true := (anyMatch_iff _ _).mpr h
    simp [checkUpdateState, hr, hb, hf]
  · intro hn hnb hnf
    have hr : r.ready.any (fun m => m data) = false := by
      simpa [anyMatch_iff] using hn
    have hb : r.building.any (fun m => m data) = false := by
      simpa [anyMatch_iff] using hnb
    have hf : r.failed.any (fun m => m data) = false := by
      simpa [anyMatch_iff] using hnf
    simp [checkUpdateState, hr, hb, hf]

/-- A runner whose ready and failed lists both match `"boom"`. -/
def rC1w : Runner :=
  mkRunner (Spec.mk "cmd" [] (some "w1") false [] [] [fun s => s == "boom"] [fun s => s == "boom"])
    false

/-- Witness for `checkUpdateState_priority`: a chunk matching both a ready and
a failed pattern transitions to `READY`. -/
theorem checkUpdateState_priority_witness :
    checkUpdateState rC1w "boom"
      = ({rC1w with state := State.READY}, [Event.stateChange rC1w.name State.READY]) := by
  refine (checkUpdateState_priority rC1w "boom").1 ⟨fun s => s == "boom", ?_, by decide⟩
  show _ ∈ [fun s => s == "boom"]
  exact List.mem_singleton.mpr rfl

/-! ### The manager's display handlers (C10) and the chunk/line question (C8) -/

lemma nonCRLFRunsAux_eq_nil (cs : List Char) : ∀ cur,
    nonCRLFRunsAux cur cs = [] ↔ (cur.isEmpty = true ∧ ∀ c ∈ cs, isCRLF c = true) := by
  induction cs with
  | nil =>
      intro cur
      by_cases h : cur.isEmpty
      · simp [nonCRLFRunsAux, h]
      · simp [nonCRLFRunsAux, h]
  | cons c cs ih =>
      intro cur
      by_cases h : isCRLF c = true
      · by_cases hc : cur.isEmpty
        · simp [nonCRLFRunsAux, h, hc, ih]
        · simp [nonCRLFRunsAux, h, hc]
      · simp [nonCRLFRunsAux, h, ih]

lemma nonCRLFRuns_eq_nil (cs : List Char) :
    nonCRLFRuns cs = [] ↔ ∀ c ∈ cs, isCRLF c = true := by
  simpa [nonCRLFRuns] using nonCRLFRunsAux_eq_nil cs []

/-- C10: the manager's stdout and stderr display handlers throw (the line
extraction yields `null` and destructuring fails) exactly on the chunks whose
characters are all carriage returns or line feeds — including the empty
chunk — and print otherwise. -/
theorem managerLines_crlf_totality (name data : String) :
    (managerOutLines name data = none ↔ ∀ c ∈ data.toList, c = '\r' ∨ c = '\n')
  ∧ (managerErrLines name data = none ↔ ∀ c ∈ data.toList, c = '\r' ∨ c = '\n') := by
  have h : nonCRLFRuns data.toList = [] ↔ ∀ c ∈ data.toList, c = '\r' ∨ c = '\n' := by
    rw [nonCRLFRuns_eq_nil]
    constructor
    · intro hh c hc
      exact (isCRLF_iff c).mp (hh c hc)
    · intro hh c hc
      exact (isCRLF_iff c).mpr (hh c hc)
  constructor
  · unfold managerOutLines
    cases hr : nonCRLFRuns data.toList with
    | nil => simpa using h.mp hr
    | cons a l =>
        simp only [hr]
        refine iff_of_false (by simp) ?_
        intro hall
        rw [h.mpr hall] at hr
        exact List.noConfusion hr
  · unfold managerErrLines
    cases hr : nonCRLFRuns data.toList with
    | nil => simpa using h.mp hr
    | cons a l =>
        simp only [hr]
        refine iff_of_false (by simp) ?_
        intro hall
        rw [h.mpr hall] at hr
        exact List.noConfusion hr

/-- A runner with ready pattern matching exactly `"ok"` and failed pattern
matching exactly `"bad"`. -/
def rC8 : Runner :=
  mkRunner (Spec.mk "app" [] (some "app") false [] [] [fun s => s == "ok"] [fun s => s == "bad"])
    false

/-- Counterexample to C8 as stated: on the single chunk `"bad\nok"` the
source classifier (whole chunk) emits no event at all, while line-by-line
classification of the same chunk would emit a FAILED and then a READY event —
so classification does not split chunks into lines. -/
theorem chunk_vs_lines_cex :
    (checkUpdateState rC8 "bad\nok").2 = []
  ∧ (checkUpdateStateSpecLines rC8 "bad\nok").2
      = [Event.stateChange "app" State.FAILED, Event.stateChange "app" State.READY]
  ∧ (checkUpdateState rC8 "bad\nok").2 ≠ (checkUpdateStateSpecLines rC8 "bad\nok").2 := by
  refine ⟨by decide, by decide, by decide⟩

/-- C8 (amended): classification treats each chunk as a single string — it
emits at most one state-change event per chunk — and consecutive chunks are
classified independently, with no cross-chunk buffering. -/
theorem chunk_classification (r : Runner) (data c2 : String) :
    (checkUpdateState r data).2.length ≤ 1
  ∧ (deliverChunks r [(false, data), (false, c2)]).2
      = (outHandler r data).2 ++ (outHandler (outHandler r data).1 c2).2 := by
  constructor
  · unfold checkUpdateState
    split
    · simp
    · split
      · simp
      · split
        · simp
        · simp
  · simp [deliverChunks]

/-! ### The manager's close handler (C4) -/

/-- C4 (code evaluation at the failing input): when the close event arrives
with no restart capability — the install-failure path delivers a bare exit
code, here 2 — the manager's `_close` still reaches `restart()`, which is
`undefined`, and throws a TypeError after printing the notice, instead of
taking no further action. -/
theorem managerClose_bare_throws :
    managerClose (CloseArg.bare (some 2))
      = ([Event.statusClear, Event.printLine (crashNotice "undefined")],
         some JsError.typeError) := rfl

/-! ### Watch-triggered restart (C5) -/

lemma checkUpdateState_restarted (r : Runner) (data : String) :
    (checkUpdateState r data).1.restarted = r.restarted := by
  rw [checkUpdateState_fst r data]

lemma outHandler_fst_restarted (r : Runner) (data : String) :
    (outHandler r data).1.restarted = r.restarted := by
  simp [outHandler, checkUpdateState_restarted]

/-- C5: a watch change event sets the planned-exit flag, emits the
informational output line (with whatever classification it triggers), invokes
the process-tree terminator and immediately re-spawns; the subsequent exit of
the killed process is swallowed by `_close` — the flag is cleared, no
state-change event is emitted, and the `close` callback (the source of
"unexpectedly quit" notices) is never invoked. -/
theorem watch_restart_silent (r : Runner) (code : Int) :
    (restartHandler r).1.restarted = true
  ∧ (restartHandler r).2
      = Event.out r.name watchRestartMsg
          :: (checkUpdateState {r with restarted := true} watchRestartMsg).2
          ++ [Event.kill r.name, Event.spawn r.name]
  ∧ closeHandler (restartHandler r).1 code
      = ({(restartHandler r).1 with restarted := false}, [], none) := by
  have hflag : (restartHandler r).1.restarted = true := by
    simp [restartHandler, outHandler_fst_restarted]
  refine ⟨hflag, ?_, ?_⟩
  · simp [restartHandler, outHandler]
  · simp [closeHandler, hflag]

/-! ### Double start (C6) -/

/-- A spec with one pending install step. -/
def specC6 : Spec :=
  Spec.mk "make" [] (some "svc6") false
    [Spec.mk "npm" [] (some "deps6") false [] [] [] []] [] [] []

/-- Counterexample to C6 as stated: on a spec with one install step, the
first `start()` consumes the step and leaves the runner un-`started`; a
second `start()` neither throws AlreadyStarted nor is inert — it spawns the
main command while the install step is still running. -/
theorem start_twice_with_install_spawns :
    (startSync (mkRunner specC6 false)).2.2.2 = none
  ∧ (startSync ((startSync (mkRunner specC6 false)).1)).2.2.2 = none
  ∧ (startSync ((startSync (mkRunner specC6 false)).1)).2.2.1 = ["svc6"] := by
  refine ⟨?_, ?_, ?_⟩ <;>
    simp [startSync, mkRunner, specC6, jsOr, instName, Spec.withName, Spec.install,
      Spec.command, Spec.args, Spec.name?, Spec.watch, Spec.building, Spec.ready, Spec.failed]

/-- C6 (amended): a second `start()` fails with AlreadyStarted — spawning
nothing and leaving the runner untouched — whenever the runner has no pending
install steps and has already started; for a spec without install steps this
covers every second call. -/
theorem start_twice_alreadyStarted (r : Runner) (h1 : r.install = []) (h2 : r.started = true) :
    startSync r = (r, [], [], some StartErr.alreadyStarted) := by
  rw [startSync]
  split
  · simp_all
  · simp [h2]

/-- A started runner with no (remaining) install steps. -/
def rC6w : Runner :=
  {mkRunner (Spec.mk "run" [] (some "w6") false [] [] [] []) false with started := true}

/-- Witness for `start_twice_alreadyStarted`. -/
theorem start_twice_alreadyStarted_witness :
    startSync rC6w = (rC6w, [], [], some StartErr.alreadyStarted) :=
  start_twice_alreadyStarted rC6w rfl rfl

/-! ### Crash, close and respawn (C7) -/

/-- A plain runner: no install steps, watch unset. -/
def rC7 : Runner := mkRunner (Spec.mk "srv" [] (some "srv7") false [] [] [] []) false

/-- Counterexample to C7 as stated: after the started runner exits with
code 1 and the manager's restart capability re-spawns it, the runner's state
is still `CLOSED` — `_run` never transitions it back to `INITIALIZING`. -/
theorem respawn_keeps_closed_cex :
    (restartCap (closeHandler (startSync rC7).1 1).1).1.state = State.CLOSED
  ∧ State.CLOSED ≠ State.INITIALIZING := by
  constructor
  · simp [startSync, rC7, mkRunner, jsOr, closeHandler, restartCap, Spec.install,
      Spec.command, Spec.args, Spec.name?, Spec.watch, Spec.building, Spec.ready, Spec.failed]
  · decide

/-- C7 (amended): a non-install runner whose process exits with code 1 (with
no watch-restart pending) transitions to `CLOSED`, emits that state change,
and hands the manager a structured close event whose restart capability
re-spawns the command after the fixed 1000 ms delay; the manager prints the
crash notice and invokes the capability; the state remains `CLOSED` after the
respawn rather than returning to `INITIALIZING`. -/
theorem crash_close_respawn (r : Runner) (h1 : r.installer = false) (h2 : r.restarted = false) :
    closeHandler r 1
      = ({r with state := State.CLOSED}, [Event.stateChange r.name State.CLOSED],
         some (CloseArg.structured r.name 1))
  ∧ managerClose (CloseArg.structured r.name 1)
      = ([Event.statusClear, Event.printLine (crashNotice r.name),
          Event.restartInvoked, Event.statusRender], none)
  ∧ restartCap {r with state := State.CLOSED}
      = ({r with state := State.CLOSED}, [Event.delay 1000, Event.spawn r.name])
  ∧ (restartCap {r with state := State.CLOSED}).1.state ≠ State.INITIALIZING := by
  refine ⟨?_, rfl, rfl, by simp [restartCap]⟩
  simp [closeHandler, h1, h2]

/-- Witness for `crash_close_respawn` at the concrete runner `rC7`. -/
theorem crash_close_respawn_witness :
    closeHandler rC7 1
      = ({rC7 with state := State.CLOSED}, [Event.stateChange rC7.name State.CLOSED],
         some (CloseArg.structured rC7.name 1)) :=
  (crash_close_respawn rC7 rfl rfl).1

/-! ### Spec mutation (C9) -/

/-- A spec with one install step named `s9`. -/
def specC9 : Spec :=
  Spec.mk "build" [] (some "p9") false
    [Spec.mk "setup" [] (some "s9") false [] [] [] []] [] [] []

/-- Counterexample to C9 as stated: `start()` mutates the CommandSpec — the
runner's `install` field (which in the source is the spec's own array,
`shift`ed in place) drops from one element to none, and the step's `name`
field is rewritten to `p9:s9`, as the trace of the install sub-runner
shows. -/
theorem spec_mutation_cex :
    (startSync (mkRunner specC9 false)).1.install = []
  ∧ specC9.install.length = 1
  ∧ (startSync (mkRunner specC9 false)).2.1
      = [Event.stateChange "p9:s9" State.INSTALLING, Event.spawn "p9:s9"] := by
  refine ⟨?_, by decide, ?_⟩ <;>
    simp [startSync, mkRunner, specC9, jsOr, instName, Spec.withName, Spec.install,
      Spec.command, Spec.args, Spec.name?, Spec.watch, Spec.building, Spec.ready, Spec.failed]

/-- C9 (amended): starting a runner whose install queue is empty modifies no
spec-derived field; starting one with pending install steps removes the head
step from the (aliased) install list. -/
theorem spec_fields_after_start (r : Runner) :
    (r.install = [] →
        ((startSync r).1.command = r.command ∧ (startSync r).1.args = r.args
          ∧ (startSync r).1.name = r.name ∧ (startSync r).1.watch = r.watch
          ∧ (startSync r).1.building = r.building ∧ (startSync r).1.ready = r.ready
          ∧ (startSync r).1.failed = r.failed ∧ (startSync r).1.install = []))
  ∧ (∀ step rest, r.install = step :: rest → (startSync r).1.install = rest) := by
  constructor
  · intro h1
    rw [startSync]
    split
    · simp_all
    · by_cases hs : r.started
      · simp [hs, h1]
      · simp [hs, h1]
  · intro step rest h1
    rw [startSync]
    split
    · rename_i s2 r2 heq
      rw [h1] at heq
      cases heq
      rfl
    · simp_all

/-- Witness for `spec_fields_after_start`: the concrete one-step spec loses
its install step across `start`. -/
theorem spec_fields_after_start_witness :
    (startSync (mkRunner specC9 false)).1.install = [] :=
  (spec_fields_after_start (mkRunner specC9 false)).2
    (Spec.mk "setup" [] (some "s9") false [] [] [] []) [] rfl

/-! ### Infrastructure for the install-chain theorems (C2, C3) -/

lemma Spec.withName_install (s : Spec) (n : String) : (s.withName n).install = s.install := by
  cases s
  rfl

lemma Spec.withName_watch (s : Spec) (n : String) : (s.withName n).watch = s.watch := by
  cases s
  rfl

lemma Spec.withName_name? (s : Spec) (n : String) : (s.withName n).name? = some n := by
  cases s
  rfl

lemma instName_ne_empty (p : String) (s : Spec) : instName p s ≠ "" := by
  intro h
  have hlen := congrArg String.length h
  have hcolon : (":" : String).length = 1 := rfl
  simp [instName, String.length_append, hcolon] at hlen

/-- The installer sub-runner built from an install step (src line 62),
carrying the namespaced display name. -/
def subRunnerOf (parent : String) (step : Spec) : Runner :=
  mkRunner (step.withName (instName parent step)) true

lemma subRunnerOf_name (parent : String) (step : Spec) :
    (subRunnerOf parent step).name = instName parent step := by
  simp [subRunnerOf, mkRunner, jsOr, Spec.withName_name?, instName_ne_empty]

lemma subRunnerOf_install (parent : String) (step : Spec) :
    (subRunnerOf parent step).install = step.install := by
  simp [subRunnerOf, mkRunner, Spec.withName_install]

lemma checkUpdateState_name (r : Runner) (data : String) :
    (checkUpdateState r data).1.name = r.name := by
  rw [checkUpdateState_fst r data]

lemma checkUpdateState_installer (r : Runner) (data : String) :
    (checkUpdateState r data).1.installer = r.installer := by
  rw [checkUpdateState_fst r data]

lemma deliverChunks_name : ∀ (l : List (Bool × String)) (r : Runner),
    (deliverChunks r l).1.name = r.name
  | [], _ => rfl
  | (isErr, d) :: rest, r => by
      show (deliverChunks ((if isErr then errHandler r d else outHandler r d)).1 rest).1.name
        = r.name
      rw [deliverChunks_name rest]
      by_cases h : isErr
      · simp [h, errHandler, checkUpdateState_name]
      · simp [h, outHandler, checkUpdateState_name]

lemma deliverChunks_installer : ∀ (l : List (Bool × String)) (r : Runner),
    (deliverChunks r l).1.installer = r.installer
  | [], _ => rfl
  | (isErr, d) :: rest, r => by
      show (deliverChunks ((if isErr then errHandler r d else outHandler r d)).1 rest).1.installer
        = r.installer
      rw [deliverChunks_installer rest]
      by_cases h : isErr
      · simp [h, errHandler, checkUpdateState_installer]
      · simp [h, outHandler, checkUpdateState_installer]

lemma deliverChunks_restarted : ∀ (l : List (Bool × String)) (r : Runner),
    (deliverChunks r l).1.restarted = r.restarted
  | [], _ => rfl
  | (isErr, d) :: rest, r => by
      show (deliverChunks ((if isErr then errHandler r d else outHandler r d)).1 rest).1.restarted
        = r.restarted
      rw [deliverChunks_restarted rest]
      by_cases h : isErr
      · simp [h, errHandler, checkUpdateState_restarted]
      · simp [h, outHandler, checkUpdateState_restarted]

lemma procEvents_append (a b : List Event) :
    procEvents (a ++ b) = procEvents a ++ procEvents b :=
  List.filter_append a b

lemma deliverChunks_procEvents : ∀ (l : List (Bool × String)) (r : Runner),
    procEvents (deliverChunks r l).2 = []
  | [], _ => rfl
  | (isErr, d) :: rest, r => by
      show procEvents (((if isErr then errHandler r d else outHandler r d)).2
            ++ (deliverChunks _ rest).2) = []
      have hsnd : procEvents ((if isErr then errHandler r d else outHandler r d)).2
          = procEvents (checkUpdateState r d).2 := by
        by_cases h : isErr
        · simp [h, errHandler, procEvents, List.filter_cons]
        · simp [h, outHandler, procEvents, List.filter_cons]
      rw [procEvents_append, hsnd, deliverChunks_procEvents rest,
        checkUpdateState_procEvents]
      rfl

lemma procEvents_cons_stateChange (n : String) (s : State) (l : List Event) :
    procEvents (Event.stateChange n s :: l) = procEvents l := rfl

lemma procEvents_cons_spawn (n : String) (l : List Event) :
    procEvents (Event.spawn n :: l) = Event.spawn n :: procEvents l := rfl

lemma procEvents_cons_exit (n : String) (c : Int) (l : List Event) :
    procEvents (Event.exit n c :: l) = Event.exit n c :: procEvents l := rfl

lemma procEvents_cons_watchStarted (n : String) (l : List Event) :
    procEvents (Event.watchStarted n :: l) = procEvents l := rfl

lemma startToSpawn_nil (r : Runner) (env : Nat → Proc) (k : Nat) (h : r.install = []) :
    startToSpawn r env k
      = if !r.started
          then ([Event.stateChange r.name r.state, Event.spawn r.name]
                  ++ (if r.watch then [Event.watchStarted r.name] else []),
                StartOutcome.spawned {r with started := true} k)
          else ([], StartOutcome.alreadyStarted) := by
  rw [startToSpawn]
  split
  · simp_all
  · rfl

/-- The event trace produced by running one (flat) install step to its exit
under process behaviour `p`. -/
def stepEvents (parent : String) (step : Spec) (p : Proc) : List Event :=
  ([Event.stateChange (instName parent step) State.INSTALLING,
    Event.spawn (instName parent step)]
     ++ (if step.watch then [Event.watchStarted (instName parent step)] else []))
    ++ (deliverChunks {subRunnerOf parent step with started := true} p.outs).2
    ++ [Event.stateChange (instName parent step)
          (if p.code == 0 then State.COMPLETE else State.CLOSED)]
    ++ [Event.exit (instName parent step) p.code]

lemma stepEvents_procEvents (parent : String) (step : Spec) (p : Proc) :
    procEvents (stepEvents parent step p)
      = [Event.spawn (instName parent step), Event.exit (instName parent step) p.code] := by
  unfold stepEvents
  rw [procEvents_append, procEvents_append, procEvents_append, deliverChunks_procEvents]
  by_cases hw : step.watch
  · simp [hw, procEvents_cons_stateChange, procEvents_cons_spawn,
      procEvents_cons_watchStarted, procEvents_cons_exit]
    rfl
  · simp [hw, procEvents_cons_stateChange, procEvents_cons_spawn,
      procEvents_cons_watchStarted, procEvents_cons_exit]
    rfl

/-- `_close` on a live installer sub-runner: sets `COMPLETE` on exit code 0
and `CLOSED` otherwise, emits the state change, and invokes `close` with the
structured event. -/
lemma closeHandler_run (x : Runner) (code : Int) (hr : x.restarted = false)
    (hi : x.installer = true) :
    closeHandler x code
      = ({x with state := if code == 0 then State.COMPLETE else State.CLOSED},
         [Event.stateChange x.name (if code == 0 then State.COMPLETE else State.CLOSED)],
         some (CloseArg.structured x.name code)) := by
  unfold closeHandler
  rw [hr, hi]
  simp

/-- Unfolding one flat install step: `start` wraps the head step in an
installer sub-runner, spawns it, the environment delivers its behaviour, and
the close wrapper either aborts with the bare non-zero code or resets the
parent to `INITIALIZING` and recurses. -/
lemma flatStep_run (r : Runner) (step : Spec) (rest : List Spec) (env : Nat → Proc) (k : Nat)
    (h : r.install = step :: rest) (hflat : step.install = []) :
    startToSpawn r env k
      = (stepEvents r.name step (env k)
           ++ (if (env k).code == 0
                then (startToSpawn {r with install := rest, state := State.INITIALIZING} env (k+1)).1
                else []),
         if (env k).code == 0
          then (startToSpawn {r with install := rest, state := State.INITIALIZING} env (k+1)).2
          else StartOutcome.closedEarly (CloseArg.bare (some (env k).code)) (k+1)) := by
  have hsubinstall : (subRunnerOf r.name step).install = [] := by
    rw [subRunnerOf_install]
    exact hflat
  have hn : (subRunnerOf r.name step).name = instName r.name step := subRunnerOf_name _ _
  have hst : (subRunnerOf r.name step).state = State.INSTALLING := by
    simp [subRunnerOf, mkRunner]
  have hw : (subRunnerOf r.name step).watch = step.watch := by
    simp [subRunnerOf, mkRunner, Spec.withName_watch]
  have hsub : startToSpawn (mkRunner (step.withName (instName r.name step)) true) env k
      = (([Event.stateChange (instName r.name step) State.INSTALLING,
           Event.spawn (instName r.name step)]
            ++ (if step.watch then [Event.watchStarted (instName r.name step)] else [])),
         StartOutcome.spawned {subRunnerOf r.name step with started := true} k) := by
    rw [show mkRunner (step.withName (instName r.name step)) true = subRunnerOf r.name step
          from rfl]
    rw [startToSpawn_nil _ env k hsubinstall]
    have hstarted : (subRunnerOf r.name step).started = false := rfl
    rw [hstarted]
    refine Prod.ext ?_ ?_
    · show ([Event.stateChange (subRunnerOf r.name step).name (subRunnerOf r.name step).state,
             Event.spawn (subRunnerOf r.name step).name]
              ++ (if (subRunnerOf r.name step).watch
                   then [Event.watchStarted (subRunnerOf r.name step).name] else []))
          = ([Event.stateChange (instName r.name step) State.INSTALLING,
              Event.spawn (instName r.name step)]
              ++ (if step.watch then [Event.watchStarted (instName r.name step)] else []))
      rw [hn, hst, hw]
    · show StartOutcome.spawned {subRunnerOf r.name step with started := true} k
          = StartOutcome.spawned {subRunnerOf r.name step with started := true} k
      rfl
  have hdr : (deliverChunks {subRunnerOf r.name step with started := true} (env k).outs).1.restarted
      = false := by
    rw [deliverChunks_restarted]
    rfl
  have hdi : (deliverChunks {subRunnerOf r.name step with started := true} (env k).outs).1.installer
      = true := by
    rw [deliverChunks_installer]
    rfl
  have hdn : (deliverChunks {subRunnerOf r.name step with started := true} (env k).outs).1.name
      = instName r.name step := by
    rw [deliverChunks_name]
    exact hn
  have hclose := closeHandler_run _ ((env k).code) hdr hdi
  rw [startToSpawn]
  split
  · rename_i step2 rest2 heq
    rw [h] at heq
    injection heq with he1 he2
    subst he1
    subst he2
    simp only [hsub, hclose, hdn, wrapperCode]
    cases hc : (env k).code == 0 with
    | true =>
        simp only [hc, if_true, stepEvents]
    | false =>
        simp only [hc, if_false, stepEvents]
        simp [List.append_assoc]
  · rename_i heq
    rw [h] at heq
    exact List.noConfusion heq

/-- C2: starting a runner whose install queue holds N flat steps, in an
environment where each step's process exits with code 0, runs the steps
strictly one at a time in declared order — the process-lifecycle projection
of the trace is spawn₁, exit₁ 0, …, spawn_N, exit_N 0, and only then the
spawn of the main command — and the parent transitions back to
`INITIALIZING`, that state-change event immediately preceding the main spawn
at the end of the trace. -/
theorem installChain_success :
    ∀ (steps : List Spec) (r : Runner) (env : Nat → Proc) (k : Nat),
      r.install = steps → r.started = false →
      (steps = [] → r.state = State.INITIALIZING) →
      (∀ s ∈ steps, s.install = []) →
      (∀ i, i < steps.length → (env (k + i)).code = 0) →
      ∃ ev,
        startToSpawn r env k
          = (ev, StartOutcome.spawned
                   {r with install := [], state := State.INITIALIZING, started := true}
                   (k + steps.length))
        ∧ procEvents ev
            = ((steps.map (fun s =>
                  [Event.spawn (instName r.name s), Event.exit (instName r.name s) 0])).flatten
                ++ [Event.spawn r.name])
        ∧ ∃ pre, ev = pre ++ ([Event.stateChange r.name State.INITIALIZING, Event.spawn r.name]
                         ++ (if r.watch then [Event.watchStarted r.name] else [])) := by
  intro steps
  induction steps with
  | nil =>
      intro r env k h hstarted hstate _ _
      have hst : r.state = State.INITIALIZING := hstate rfl
      have hrunner : ({r with started := true} : Runner)
          = {r with install := [], state := State.INITIALIZING, started := true} := by
        obtain ⟨c, a, n, w, i, b, rd, f, inst, st, sd, rst⟩ := r
        simp_all
      refine ⟨[Event.stateChange r.name State.INITIALIZING, Event.spawn r.name]
               ++ (if r.watch then [Event.watchStarted r.name] else []), ?_, ?_, ⟨[], by simp⟩⟩
      · rw [startToSpawn_nil r env k h, hstarted]
        refine Prod.ext ?_ ?_
        · show [Event.stateChange r.name r.state, Event.spawn r.name]
              ++ (if r.watch then [Event.watchStarted r.name] else []) = _
          rw [hst]
        · show StartOutcome.spawned {r with started := true} k = _
          rw [hrunner]
          rfl
      · rw [procEvents_append]
        by_cases hw : r.watch
        · simp [hw, procEvents_cons_stateChange, procEvents_cons_spawn,
            procEvents_cons_watchStarted]
          rfl
        · simp [hw, procEvents_cons_stateChange, procEvents_cons_spawn]
          rfl
  | cons step rest ih =>
      intro r env k h hstarted hstate hflat hcodes
      have hflatstep : step.install = [] := hflat step (List.mem_cons_self _ _)
      have hc0 : (env k).code = 0 := by simpa using hcodes 0 (by simp)
      have hc0b : ((env k).code == 0) = true := by simp [hc0]
      obtain ⟨ev', hev', hproj', pre', hpre'⟩ :=
        ih {r with install := rest, state := State.INITIALIZING} env (k+1)
          rfl hstarted (fun _ => rfl) (fun s hs => hflat s (List.mem_cons_of_mem _ hs))
          (fun i hi => by
            have hcc := hcodes (i+1) (by simpa using Nat.succ_lt_succ hi)
            rwa [show k + (i+1) = k + 1 + i from by omega] at hcc)
      refine ⟨stepEvents r.name step (env k) ++ ev', ?_, ?_, ?_⟩
      · rw [flatStep_run r step rest env k h hflatstep, hc0b]
        simp only [if_true]
        rw [hev']
        refine Prod.ext rfl ?_
        show StartOutcome.spawned _ (k + 1 + rest.length)
            = StartOutcome.spawned _ (k + (step :: rest).length)
        rw [show k + (step :: rest).length = k + 1 + rest.length from by
              simp [List.length_cons]
              omega]
      · rw [procEvents_append, stepEvents_procEvents, hproj', hc0]
        simp [List.append_assoc]
      · refine ⟨stepEvents r.name step (env k) ++ pre', ?_⟩
        rw [hpre']
        simp [List.append_assoc]

/-- A spec with two flat install steps. -/
def specC2w : Spec :=
  Spec.mk "main2" [] (some "par2") false
    [Spec.mk "s1" [] (some "one") false [] [] [] [],
     Spec.mk "s2" [] (some "two") false [] [] [] []] [] [] []

/-- An environment in which every process exits silently with code 0. -/
def envC2w : Nat → Proc := fun _ => ⟨[], 0⟩

/-- Witness for `installChain_success`: the two-step chain reaches the main
spawn with both steps consumed. -/
theorem installChain_success_witness :
    ∃ ev,
      startToSpawn (mkRunner specC2w false) envC2w 0
        = (ev, StartOutcome.spawned
                 {(mkRunner specC2w false) with install := [], state := State.INITIALIZING, started := true}
                 2) := by
  obtain ⟨ev, h1, -, -⟩ :=
    installChain_success ((mkRunner specC2w false).install) (mkRunner specC2w false) envC2w 0
      rfl rfl
      (fun hh => by simp [mkRunner, specC2w, Spec.install] at hh)
      (fun s hs => by
        simp [mkRunner, specC2w, Spec.install] at hs
        rcases hs with h | h <;> subst h <;> rfl)
      (fun i _ => rfl)
  exact ⟨ev, h1⟩

/-- The fallback used to name the failing step in `installChain_failure`
(irrelevant when the index is in range). -/
def defaultSpec : Spec := Spec.mk "" [] none false [] [] [] []

/-- C3: if install step `f` (0-based) of the chain exits with a non-zero
code while all earlier steps exit 0, the chain aborts at once: the trace's
process-lifecycle projection contains exactly the spawns and exits of steps
0..f — no later step and no main command is ever spawned — and the parent
runner's `close` callback is invoked with the bare failing exit code, which
carries no restart capability. -/
theorem installChain_failure :
    ∀ (steps : List Spec) (f : Nat) (r : Runner) (env : Nat → Proc) (j : Nat),
      r.install = steps → r.started = false →
      (∀ s ∈ steps, s.install = []) →
      f < steps.length →
      (∀ i, i < f → (env (j + i)).code = 0) →
      (env (j + f)).code ≠ 0 →
      ∃ ev,
        startToSpawn r env j
          = (ev, StartOutcome.closedEarly
                   (CloseArg.bare (some ((env (j + f)).code))) (j + f + 1))
        ∧ procEvents ev
            = (((steps.take f).map (fun s =>
                  [Event.spawn (instName r.name s), Event.exit (instName r.name s) 0])).flatten
                ++ [Event.spawn (instName r.name (steps.getD f defaultSpec)),
                    Event.exit (instName r.name (steps.getD f defaultSpec)) ((env (j + f)).code)]) := by
  intro steps
  induction steps with
  | nil =>
      intro f r env j _ _ _ hf _ _
      exact absurd hf (by simp)
  | cons step rest ih =>
      intro f r env j h hstarted hflat hf hzero hfail
      have hflatstep : step.install = [] := hflat step (List.mem_cons_self _ _)
      cases f with
      | zero =>
          have hcb : ((env j).code == 0) = false := by
            rw [beq_eq_false_iff_ne]
            simpa using hfail
          refine ⟨stepEvents r.name step (env j), ?_, ?_⟩
          · rw [flatStep_run r step rest env j h hflatstep, hcb]
            simp
          · rw [stepEvents_procEvents]
            simp
      | succ f2 =>
          have hc0 : (env j).code = 0 := by simpa using hzero 0 (Nat.succ_pos _)
          have hc0b : ((env j).code == 0) = true := by simp [hc0]
          obtain ⟨ev2, hev2, hproj2⟩ :=
            ih f2 {r with install := rest, state := State.INITIALIZING} env (j+1)
              rfl hstarted (fun s hs => hflat s (List.mem_cons_of_mem _ hs))
              (by simpa using Nat.lt_of_succ_lt_succ hf)
              (fun i hi => by
                have hcc := hzero (i+1) (Nat.succ_lt_succ hi)
                rwa [show j + (i+1) = j + 1 + i from by omega] at hcc)
              (by
                have hidx : j + (f2+1) = j + 1 + f2 := by omega
                rwa [hidx] at hfail)
          have hidx : j + (f2+1) = j + 1 + f2 := by omega
          refine ⟨stepEvents r.name step (env j) ++ ev2, ?_, ?_⟩
          · rw [flatStep_run r step rest env j h hflatstep, hc0b]
            simp only [if_true]
            rw [hev2]
            refine Prod.ext rfl ?_
            show StartOutcome.closedEarly (CloseArg.bare (some ((env (j+1+f2)).code))) (j+1+f2+1)
                = StartOutcome.closedEarly (CloseArg.bare (some ((env (j+(f2+1))).code))) (j+(f2+1)+1)
            rw [hidx]
          · rw [procEvents_append, stepEvents_procEvents, hproj2, hc0, hidx]
            simp [List.append_assoc]

/-- A spec with three flat install steps. -/
def specC3w : Spec :=
  Spec.mk "main3" [] (some "par3") false
    [Spec.mk "a" [] (some "sa") false [] [] [] [],
     Spec.mk "b" [] (some "sb") false [] [] [] [],
     Spec.mk "c" [] (some "sc") false [] [] [] []] [] [] []

/-- An environment in which the second spawned process exits with code 7 and
all others with code 0. -/
def envC3w : Nat → Proc := fun i => if i = 1 then ⟨[], 7⟩ else ⟨[], 0⟩

/-- Witness for `installChain_failure`: with the second of three steps
exiting 7, the chain aborts with the bare code 7 after two processes. -/
theorem installChain_failure_witness :
    ∃ ev, startToSpawn (mkRunner specC3w false) envC3w 0
      = (ev, StartOutcome.closedEarly (CloseArg.bare (some 7)) 2) := by
  obtain ⟨ev, h1, -⟩ :=
    installChain_failure ((mkRunner specC3w false).install) 1 (mkRunner specC3w false) envC3w 0
      rfl rfl
      (fun s hs => by
        simp [mkRunner, specC3w, Spec.install] at hs
        rcases hs with h | h | h <;> subst h <;> rfl)
      (by decide)
      (fun i hi => by
        have hiz : i = 0 := by omega
        subst hiz
        rfl)
      (by decide)
  exact ⟨ev, h1⟩
